import Mathlib

/-!
Verification of the grading pipeline of this repository against its
natural-language specification.

The Python sources embedded here (shallowly, as pure Lean functions):
  - `src/grader/rubric.py`        — `ensure_grading_completeness`
  - `src/grader/workflows.py`     — per-submitter body of `grade_submissions`
  - `src/grader/reviewer.py`      — `extract_review_json`, `AIFairnessChecker.review`
  - `src/utils/anonymize.py`      — `generate_anonymized_mapping`
  - `src/utils/file_ops.py`       — `get_submission_status`

Modelling conventions:
  - Python dicts with a fixed field set become structures; a field the code
    reads with `dict.get(key)` (possibly absent) becomes an `Option`.
  - JSON numeric points are modelled as `Int` (the code coerces every points
    value with `int(float(...))`, which is the identity on integer values);
    reviewer confidences are modelled as `Rat`.
  - Python string `strip` is modelled by `pyStrip` (drop whitespace at both
    ends), and Python string ordering (code-point lexicographic, used by
    `sorted`) by `lexLe` on the character list.
  - Remote calls, file IO and JSON parsing are modelled by their outcomes,
    carried as explicit inputs (`SubmissionInfo`, `ReviewTransportOutcome`).
  - Concrete rationals are written with an explicit numerator/denominator
    constructor so that they evaluate inside the kernel.
-/

/-- One rubric criterion as fetched from Canvas: a name and its maximum
points (`src/canvas/client.py` rubric rows; only the fields the grading
pipeline reads are modelled). -/
structure RubricItem where
  criterion : String
  max_points : Int
  deriving DecidableEq, Repr

/-- One entry of a grading result's `rubric_scores` array: criterion name,
awarded points, optional `max_points` key (absent from entries produced by
the grader template and by zero-fill), and a reason string. -/
structure ScoreEntry where
  criterion : String
  points : Int
  max_points : Option Int
  reason : String
  deriving DecidableEq, Repr

/-- A grading result dict: the `rubric_scores` key (an `Option`, because
`ensure_grading_completeness` guards on the key being present) and the
`overall_feedback` string (read with default `""`, so absence is modelled
as the empty string). -/
structure GradingResult where
  rubric_scores : Option (List ScoreEntry)
  overall_feedback : String
  deriving DecidableEq, Repr

/-- Python `s.strip()`: remove leading and trailing whitespace. -/
def pyStrip (s : String) : String :=
  ⟨((s.data.dropWhile Char.isWhitespace).reverse.dropWhile Char.isWhitespace).reverse⟩

/-- `rubric.py`, `ensure_grading_completeness`: if the result is missing the
`rubric_scores` key it is returned untouched; otherwise every rubric item
whose criterion is absent from the result's criterion set is appended as a
zero-point entry with the standard reason.  The membership set is computed
once, before the appending loop, exactly as in the source. -/
def ensure_grading_completeness (g : GradingResult) (rubric_items : List RubricItem) :
    GradingResult :=
  match g.rubric_scores with
  | none => g
  | some scores =>
    let graded_criteria := scores.map (fun s => s.criterion)
    { g with rubric_scores := some (scores ++
        (rubric_items.filter (fun it => it.criterion ∉ graded_criteria)).map
          (fun it => ⟨it.criterion, 0, none,
            "This criterion was not addressed in the submission."⟩)) }

/-- `workflows.py` lines 181-187: the score-ceiling rule applied when the
total is computed.  The source keeps the awarded points when
`points >= item.get("max_points", points)` and otherwise replaces them
by `0` (the `int(float(...))` coercions are the identity on the `Int`
model). `{**item, ...}` keeps the other keys. -/
def applyScoreCeiling (item : ScoreEntry) : ScoreEntry :=
  { item with points := if item.points ≥ item.max_points.getD item.points then item.points else 0 }

/-- Sum of the `points` fields of a score list (`sum(item["points"] ...)`). -/
def sumPoints (scores : List ScoreEntry) : Int :=
  (scores.map (fun s => s.points)).sum

/-- The note appended to every AI-generated general comment. -/
def gradingNote : String := "This was graded by AI and submitted after human review."

/-- `workflows.py` lines 189-195: strip the overall feedback and append the
AI note (the stripped feedback is truthy iff non-empty). -/
def appendGradingNote (fb : String) : String :=
  if pyStrip fb ≠ "" then pyStrip fb ++ "\n\n" ++ gradingNote else gradingNote

/-- The reviewer's verdict as returned by `AIFairnessChecker.review`:
the 4-tuple `(fair, reason, revised_grade, confidence)`. -/
structure FairnessVerdict where
  fair : Bool
  reason : String
  revised : Option GradingResult
  confidence : Rat
  deriving DecidableEq, Repr

/-- A caller-supplied manual override entry: `score`, `feedback` and an
optional `rubric_scores` list. -/
structure ManualOverride where
  score : Int
  feedback : String
  rubric_scores : Option (List ScoreEntry)
  deriving DecidableEq, Repr

/-- One row of `all_results` as assembled by `grade_submissions`.  The
Python code stores `""` for `original_score` / `original_feedback` when no
regrade happened; that sentinel is modelled as `none`. -/
structure RunRecord where
  user_id : Nat
  anon_id : String
  score : Int
  was_regraded : Bool
  review_reason : String
  feedback : String
  rubric_details : String
  rubric_scores : List ScoreEntry
  submission_status : String
  original_score : Option Int
  original_feedback : Option String
  deriving DecidableEq, Repr

/-- The `0.7` confidence threshold of `workflows.py` line 163. -/
def confidenceThreshold : Rat := ⟨7, 10, by decide, by decide⟩

/-- `workflows.py` lines 162-177: apply the reviewer's revision only when
the verdict is unfair, a revised grade is present, and the confidence is
at least `0.7`; the revised grade is itself passed through
`ensure_grading_completeness`.  Returns the chosen result and the
`was_regraded` flag. -/
def resolveConsensus (fair : Bool) (revised : Option GradingResult) (confidence : Rat)
    (g1 : GradingResult) (rubric_items : List RubricItem) : GradingResult × Bool :=
  match fair, revised with
  | false, some r =>
    if confidence ≥ confidenceThreshold then (ensure_grading_completeness r rubric_items, true)
    else (g1, false)
  | _, _ => (g1, false)

/-- One line of the rubric-detail text block (`workflows.py` lines 212-216). -/
def rubricDetailLine (s : ScoreEntry) : String :=
  s.criterion ++ ": " ++ toString s.points ++ " — " ++ s.reason

/-- The rubric-detail text block: one line per entry, newline separated. -/
def rubricDetails (scores : List ScoreEntry) : String :=
  String.intercalate "\n" (scores.map rubricDetailLine)

/-- `workflows.py` lines 144-230: build the per-submitter result record from
the primary grading result, the fairness verdict, the rubric and an optional
manual override.  Follows the source order: reconcile the primary result,
remember its score and stripped feedback, resolve the consensus, apply the
score-ceiling rule, build the general comment, then apply the override. -/
def buildRunResult (user_id : Nat) (anon_id : String) (status : String)
    (primary : GradingResult) (v : FairnessVerdict)
    (rubric_items : List RubricItem) (override : Option ManualOverride) : RunRecord :=
  let g1 := ensure_grading_completeness primary rubric_items
  let original_score := sumPoints (g1.rubric_scores.getD [])
  let original_feedback := pyStrip g1.overall_feedback
  let rg := resolveConsensus v.fair v.revised v.confidence g1 rubric_items
  let scores0 := (rg.1.rubric_scores.getD []).map applyScoreCeiling
  let total0 := sumPoints scores0
  let comment0 := appendGradingNote rg.1.overall_feedback
  match override with
  | some o =>
    let final_scores := o.rubric_scores.getD
      [⟨"Manual Override", o.score, none, "Instructor override"⟩]
    ⟨user_id, anon_id, o.score, true,
      if v.fair then "" else v.reason,
      o.feedback, rubricDetails final_scores, final_scores, status,
      some original_score, some original_feedback⟩
  | none =>
    ⟨user_id, anon_id, total0, rg.2,
      if v.fair then "" else v.reason,
      comment0, rubricDetails scores0, scores0, status,
      if rg.2 then some original_score else none,
      if rg.2 then some original_feedback else none⟩

/-- `file_ops.py`, `get_submission_status`: Missing when the attempt is
absent or the missing flag is set; then Late; then Resubmitted for
attempt > 1; else On Time. -/
def get_submission_status (missing late : Bool) (attempt : Option Nat) : String :=
  if attempt.isNone || missing then "Missing"
  else if late then "Late"
  else if attempt.getD 1 > 1 then "Resubmitted"
  else "On Time"

/-- `workflows.py` lines 101-110: the inline status derivation used for the
per-result `submission_status` field.  Note the order: the missing flag is
checked first, then the late flag, and only then an absent attempt. -/
def workflowStatus (missing late : Bool) (attempt : Option Nat) : String :=
  if missing then "Missing"
  else if late then "Late"
  else if attempt.isNone then "Missing"
  else if attempt.getD 1 > 1 then "Resubmitted"
  else "On Time"

/-- The result record built for a missing submission when
`grade_missing_as_zero` is set (`workflows.py` lines 71-96). -/
def missingZeroRecord (user_id : Nat) (anon_id : String)
    (rubric_items : List RubricItem) : RunRecord :=
  ⟨user_id, anon_id, 0, false, "Missing submission", "No submission received.",
    "No work submitted.",
    rubric_items.map (fun it => ⟨it.criterion, 0, none, "No work submitted."⟩),
    "Missing", none, none⟩

/-- One entry of the batch's `extraction_failures` list. -/
structure FailureEntry where
  user_id : Nat
  anon_id : String
  status : String
  reason : String
  deriving DecidableEq, Repr

/-- The outcome of the per-submitter loop body for one submitter: the
appended result record (if any), the appended failure entry (if any), and
whether an `update_progress` tick was emitted for this submitter. -/
structure SubmitterStep where
  record : Option RunRecord
  failure : Option FailureEntry
  progressed : Bool
  deriving DecidableEq, Repr

/-- The data of one submitter as consumed by the loop body, with the
effectful stages abstracted to their outcomes: `attachments` is the raw
attachment list, `downloaded` the paths returned by the Canvas download,
`extracted_text` the text returned by `prepare_submission_for_grading`,
`error_msg` an exception raised during grading or fairness review (if any),
`primary` the grader's result and `verdict` the reviewer's verdict. -/
structure SubmissionInfo where
  user_id : Nat
  missing : Bool
  late : Bool
  attempt : Option Nat
  attachments : List String
  downloaded : List String
  extracted_text : String
  error_msg : Option String
  primary : GradingResult
  verdict : FairnessVerdict

/-- `workflows.py` lines 70-245, the per-submitter loop body: the
missing-as-zero shortcut (with progress tick), then the skip for an empty
attachment list, the skip for failed downloads, the no-extractable-text
failure entry, a caught per-submitter exception recorded as a failure
entry, and finally the graded record with its progress tick.  The two
skip branches only log; they append to neither list and emit no progress
tick, mirroring the bare `continue` statements of the source. -/
def processSubmitter (rubric_items : List RubricItem) (override : Option ManualOverride)
    (grade_missing_as_zero : Bool) (anon_id : String) (sub : SubmissionInfo) :
    SubmitterStep :=
  if grade_missing_as_zero && sub.missing then
    ⟨some (missingZeroRecord sub.user_id anon_id rubric_items), none, true⟩
  else
    let status := workflowStatus sub.missing sub.late sub.attempt
    if sub.attachments.isEmpty then ⟨none, none, false⟩
    else if sub.downloaded.isEmpty then ⟨none, none, false⟩
    else if pyStrip sub.extracted_text = "" then
      ⟨none, some ⟨sub.user_id, anon_id, status, "No extractable text in submission"⟩, false⟩
    else
      match sub.error_msg with
      | some e => ⟨none, some ⟨sub.user_id, anon_id, status, e⟩, false⟩
      | none =>
        ⟨some (buildRunResult sub.user_id anon_id status sub.primary sub.verdict
            rubric_items override), none, true⟩

/-- The rational `0.5` (reviewer fallback confidence), written with an
explicit constructor so it evaluates in the kernel. -/
def ratHalf : Rat := ⟨1, 2, by decide, by decide⟩

/-- The rational `0.0`. -/
def ratZero : Rat := ⟨0, 1, by decide, by decide⟩

/-- The fields `extract_review_json` reads from a successfully parsed JSON
object, each optional because the code reads them with `dict.get`. -/
structure ReviewData where
  fair : Option Bool
  reason : Option String
  suggested_grading_result : Option GradingResult
  confidence : Option Rat

/-- `reviewer.py`, `extract_review_json`, with the JSON parse abstracted to
its outcome: `some d` for a successfully parsed object, `none` when no
braces are found or parsing raises.  On success: `fair` defaults to true,
`reason` is kept only when unfair (default empty), the suggested grade is
kept only when unfair, and `confidence` defaults to `0.5`.  On failure the
fixed default `(True, "Gemini returned unreadable review response.", None,
0.0)` is returned. -/
def extract_review_json (parsed : Option ReviewData) :
    Bool × String × Option GradingResult × Rat :=
  match parsed with
  | some d =>
    let fair := d.fair.getD true
    (fair, if fair then "" else d.reason.getD "",
      if fair then none else d.suggested_grading_result,
      d.confidence.getD ratHalf)
  | none => (true, "Gemini returned unreadable review response.", none, ratZero)

/-- The outcome of the reviewer's remote call: either a response whose body
was (or was not) parsable, or an exception raised anywhere in the `try`
block. -/
inductive ReviewTransportOutcome where
  | response (parsed : Option ReviewData)
  | raised (msg : String)

/-- `AIFairnessChecker.review` after the precondition check: a successful
transport goes through `extract_review_json`; any exception is caught and
converted to the verdict `(True, "Error running Gemini review: " + e,
None, 0.5)` (`reviewer.py` lines 120-122). -/
def reviewVerdictOf : ReviewTransportOutcome → Bool × String × Option GradingResult × Rat
  | .response p => extract_review_json p
  | .raised e => (true, "Error running Gemini review: " ++ e, none, ratHalf)

/-- Code-point lexicographic order on character lists: the order Python's
`sorted` uses on strings. -/
def lexLe : List Char → List Char → Bool
  | [], _ => true
  | _ :: _, [] => false
  | a :: as, b :: bs =>
    if a.toNat < b.toNat then true
    else if b.toNat < a.toNat then false
    else lexLe as bs

/-- Python string order as a proposition. -/
def pyLe (a b : String) : Prop := lexLe a.data b.data = true

instance : DecidableRel pyLe := fun a b => instDecidableEqBool (lexLe a.data b.data) true

/-- Python `sorted` on a list of strings. -/
def sortedStrings (l : List String) : List String := List.insertionSort pyLe l

/-- Decimal digit characters of `n`, most significant first, computed with
explicit fuel so the definition is structural (`str(n)` for `n < fuel`). -/
def natDigitsAux : Nat → Nat → List Char
  | 0, _ => []
  | fuel + 1, n =>
    if n < 10 then [Nat.digitChar n]
    else natDigitsAux fuel (n / 10) ++ [Nat.digitChar (n % 10)]

/-- Python `str(n)` for a natural number. -/
def natStr (n : Nat) : String := ⟨natDigitsAux (n + 1) n⟩

/-- Python `s.zfill(w)`: left-pad with `'0'` to width `w`. -/
def zfill (w : Nat) (s : String) : String :=
  ⟨List.replicate (w - s.data.length) '0' ++ s.data⟩

/-- The anonymous label for 1-indexed rank `n`: `"user" + str(n).zfill(3)`. -/
def anonLabel (n : Nat) : String := "user" ++ zfill 3 (natStr n)

/-- `anonymize.py`, `generate_anonymized_mapping`: enumerate the sorted
identifier list and pair each identifier with its label.  The Python dict
comprehension is modelled as the association list in insertion order. -/
def generate_anonymized_mapping (user_ids : List String) : List (String × String) :=
  (sortedStrings user_ids).enum.map (fun p => (p.2, anonLabel (p.1 + 1)))

/-- Helper: after `ensure_grading_completeness`, every rubric criterion is
present in the result's criterion list. -/
lemma mem_criteria_ensure (g : GradingResult) (scores : List ScoreEntry)
    (rubric_items : List RubricItem) (h : g.rubric_scores = some scores) :
    ∀ it ∈ rubric_items,
      it.criterion ∈ ((ensure_grading_completeness g rubric_items).rubric_scores.getD []).map
        (fun s => s.criterion) := by
  intro it hit
  by_cases hc : it.criterion ∈ scores.map (fun s => s.criterion)
  · simp only [ensure_grading_completeness, h, Option.getD_some, List.map_append]
    exact List.mem_append_left _ hc
  · simp only [ensure_grading_completeness, h, Option.getD_some, List.map_append, List.map_map]
    refine List.mem_append_right _ ?_
    refine List.mem_map.mpr ⟨it, ?_, rfl⟩
    exact List.mem_filter.mpr ⟨hit, by simpa using hc⟩

/-- Claim C1 (counterexample): the claim asserts that an awarded value
strictly exceeding the criterion's maximum yields 0 points (max 10,
awarded 15 → reconciled 0).  The code's ceiling rule keeps an awarded
value when it is at least the recorded maximum, so 15 out of 10 is kept
and the total is 15, not 0. -/
theorem score_ceiling_counterexample :
    (buildRunResult 7 "user001" "On Time"
        ⟨some [⟨"Clarity", 15, some 10, "strong"⟩], "Good work"⟩
        ⟨true, "", none, ratZero⟩ [⟨"Clarity", 10⟩] none).rubric_scores
      = [⟨"Clarity", 15, some 10, "strong"⟩] ∧
    (buildRunResult 7 "user001" "On Time"
        ⟨some [⟨"Clarity", 15, some 10, "strong"⟩], "Good work"⟩
        ⟨true, "", none, ratZero⟩ [⟨"Clarity", 10⟩] none).score = 15 := by
  exact ⟨rfl, rfl⟩

/-- Claim C1 (amended): the score-ceiling rule at total-computation time
honors an awarded value iff it is at least the entry's recorded
`max_points` (an entry without that key keeps its value); a value strictly
below the maximum is zeroed, while a value at or strictly above the
maximum — including one exceeding it, such as 15 with max 10 — is kept
unchanged.  The reported total equals the sum of the post-rule points. -/
theorem score_ceiling_amended (e : ScoreEntry) (m : Int)
    (uid : Nat) (aid status : String) (primary : GradingResult)
    (v : FairnessVerdict) (rubric_items : List RubricItem) :
    (e.max_points = some m → m ≤ e.points → (applyScoreCeiling e).points = e.points) ∧
    (e.max_points = some m → e.points < m → (applyScoreCeiling e).points = 0) ∧
    (e.max_points = none → (applyScoreCeiling e).points = e.points) ∧
    (buildRunResult uid aid status primary v rubric_items none).score
      = sumPoints (buildRunResult uid aid status primary v rubric_items none).rubric_scores := by
  refine ⟨?_, ?_, ?_, rfl⟩
  · intro hm h
    simp [applyScoreCeiling, hm, h]
  · intro hm h
    simp only [applyScoreCeiling, hm, Option.getD_some]
    rw [if_neg (by omega)]
  · intro hm
    simp [applyScoreCeiling, hm]

/-- Witness for `score_ceiling_amended` at the claim's own numbers: an
awarded 15 against max 10 is honored; an awarded 4 against max 10 is
zeroed. -/
theorem score_ceiling_amended_witness :
    (applyScoreCeiling ⟨"Clarity", 15, some 10, "r"⟩).points = 15 ∧
    (applyScoreCeiling ⟨"Clarity", 4, some 10, "r"⟩).points = 0 := by
  exact ⟨(score_ceiling_amended ⟨"Clarity", 15, some 10, "r"⟩ 10 0 "" ""
            ⟨none, ""⟩ ⟨true, "", none, ratZero⟩ []).1 rfl (by decide),
         (score_ceiling_amended ⟨"Clarity", 4, some 10, "r"⟩ 10 0 "" ""
            ⟨none, ""⟩ ⟨true, "", none, ratZero⟩ []).2.1 rfl (by decide)⟩

/-- Claim C4 (counterexample): the claim asserts that every transport or
parse failure yields the verdict (fair = true, empty reason, null
alternative, confidence 0.0).  In the code a transport failure returns
confidence 0.5, and a parse failure returns a non-empty diagnostic
reason. -/
theorem reviewer_default_counterexample :
    (reviewVerdictOf (.raised "boom")).2.2.2 = ratHalf ∧ ratHalf ≠ ratZero ∧
    (reviewVerdictOf (.response none)).2.1 ≠ "" := by
  exact ⟨rfl, by decide, by decide⟩

/-- Claim C4 (amended): a fairness-review failure never blocks grading; it
returns a fair verdict with a null alternative and a non-empty diagnostic
reason — confidence 0.0 when the response could not be parsed, and
confidence 0.5 when the transport raised. -/
theorem reviewer_failure_amended (e : String) :
    reviewVerdictOf (.raised e)
      = (true, "Error running Gemini review: " ++ e, none, ratHalf) ∧
    reviewVerdictOf (.response none)
      = (true, "Gemini returned unreadable review response.", none, ratZero) := by
  exact ⟨rfl, rfl⟩

/-- Claim C5 (counterexample): the claim asserts that after reconciliation
the criterion set exactly equals the rubric's.  A result entry whose
criterion is outside the rubric is retained, so the sets differ. -/
theorem reconcile_extra_criterion_counterexample :
    (ensure_grading_completeness ⟨some [⟨"Extra", 5, none, "r"⟩], ""⟩
        [⟨"Clarity", 10⟩]).rubric_scores
      = some [⟨"Extra", 5, none, "r"⟩,
              ⟨"Clarity", 0, none, "This criterion was not addressed in the submission."⟩] ∧
    "Extra" ∉ ([⟨"Clarity", 10⟩] : List RubricItem).map (fun it => it.criterion) := by
  exact ⟨rfl, by decide⟩

/-- Claim C5 (amended): after reconciliation every rubric criterion is
present; each rubric criterion absent from the original result is present
as the appended zero-point entry with the standard not-addressed reason;
and every criterion of the reconciled result comes from the original
result or from the rubric.  Criteria outside the rubric are retained,
so the reconciled criterion set is a superset of — not always equal
to — the rubric's. -/
theorem reconcile_criteria_amended (g : GradingResult) (scores : List ScoreEntry)
    (rubric_items : List RubricItem) (h : g.rubric_scores = some scores) :
    (∀ it ∈ rubric_items,
        it.criterion ∈ ((ensure_grading_completeness g rubric_items).rubric_scores.getD []).map
          (fun s => s.criterion)) ∧
    (∀ it ∈ rubric_items, it.criterion ∉ scores.map (fun s => s.criterion) →
        (⟨it.criterion, 0, none,
            "This criterion was not addressed in the submission."⟩ : ScoreEntry)
          ∈ (ensure_grading_completeness g rubric_items).rubric_scores.getD []) ∧
    (∀ c ∈ ((ensure_grading_completeness g rubric_items).rubric_scores.getD []).map
          (fun s => s.criterion),
        c ∈ scores.map (fun s => s.criterion) ∨ c ∈ rubric_items.map (fun it => it.criterion)) := by
  refine ⟨mem_criteria_ensure g scores rubric_items h, ?_, ?_⟩
  · intro it hit hc
    simp only [ensure_grading_completeness, h, Option.getD_some]
    refine List.mem_append_right _ ?_
    refine List.mem_map.mpr ⟨it, ?_, rfl⟩
    exact List.mem_filter.mpr ⟨hit, by simpa using hc⟩
  · intro c hcmem
    simp only [ensure_grading_completeness, h, Option.getD_some, List.map_append,
      List.map_map] at hcmem
    rcases List.mem_append.mp hcmem with hl | hr
    · exact Or.inl hl
    · rcases List.mem_map.mp hr with ⟨it, hit, heq⟩
      exact Or.inr (List.mem_map.mpr ⟨it, List.mem_filter.mp hit |>.1, heq⟩)

/-- Witness for `reconcile_criteria_amended`: a rubric criterion absent
from the result appears in the reconciled result as the zero-point
not-addressed entry. -/
theorem reconcile_criteria_amended_witness :
    (⟨"Clarity", 0, none,
        "This criterion was not addressed in the submission."⟩ : ScoreEntry)
      ∈ (ensure_grading_completeness ⟨some [⟨"Extra", 5, none, "r"⟩], ""⟩
          [⟨"Clarity", 10⟩]).rubric_scores.getD [] := by
  exact (reconcile_criteria_amended ⟨some [⟨"Extra", 5, none, "r"⟩], ""⟩
      [⟨"Extra", 5, none, "r"⟩] [⟨"Clarity", 10⟩] rfl).2.1 ⟨"Clarity", 10⟩
    (by decide) (by decide)

/-- Claim C9: reconciling a result that already has an entry for every
rubric criterion returns it unchanged, and reconciliation is idempotent on
any result with a score list. -/
theorem reconcile_idempotent (g : GradingResult) (scores : List ScoreEntry)
    (rubric_items : List RubricItem) (h : g.rubric_scores = some scores)
    (hc : ∀ it ∈ rubric_items, it.criterion ∈ scores.map (fun s => s.criterion)) :
    ensure_grading_completeness g rubric_items = g ∧
    ensure_grading_completeness (ensure_grading_completeness g rubric_items) rubric_items
      = ensure_grading_completeness g rubric_items := by
  have h1 : ensure_grading_completeness g rubric_items = g := by
    cases g with
    | mk rs fb =>
      cases rs with
      | none => simp at h
      | some l =>
        obtain rfl : l = scores := by simpa using h
        simp [ensure_grading_completeness]
        intro a ha
        rcases List.mem_map.mp (hc a ha) with ⟨x, hx, hxeq⟩
        exact ⟨x, hx, hxeq⟩
  exact ⟨h1, by rw [h1, h1]⟩

/-- Witness for `reconcile_idempotent`: a complete one-criterion result is
returned unchanged. -/
theorem reconcile_idempotent_witness :
    ensure_grading_completeness ⟨some [⟨"Clarity", 10, none, "ok"⟩], "fb"⟩
        [⟨"Clarity", 10⟩]
      = ⟨some [⟨"Clarity", 10, none, "ok"⟩], "fb"⟩ := by
  exact (reconcile_idempotent ⟨some [⟨"Clarity", 10, none, "ok"⟩], "fb"⟩
      [⟨"Clarity", 10, none, "ok"⟩] [⟨"Clarity", 10⟩] rfl (by decide)).1

/-- The submission-status priority order as the claim states it: Missing
when the attempt is absent or the missing flag is set; otherwise Late when
the late flag is set; otherwise Resubmitted when attempt > 1; otherwise
On Time.  Second definition written from the claim's words, for comparison
with the two source derivations. -/
def specSubmissionStatus (missing late : Bool) (attempt : Option Nat) : String :=
  if attempt.isNone || missing then "Missing"
  else if late then "Late"
  else if attempt.getD 1 > 1 then "Resubmitted"
  else "On Time"

/-- Claim C6 (counterexample): a submission with the late flag set and an
absent attempt is classified "Late", not "Missing", by the orchestrator's
inline status derivation that feeds every result record — the late flag is
checked before the absent-attempt check there.  `get_submission_status`
classifies the same record "Missing". -/
theorem submission_status_counterexample :
    workflowStatus false true none = "Late" ∧
    get_submission_status false true none = "Missing" := by
  exact ⟨rfl, rfl⟩

/-- Claim C6 (amended): `get_submission_status` computes exactly the
claimed priority order, but the orchestrator's inline derivation checks
the late flag before the absent-attempt check, so the one diverging case
is late = true with attempt absent (and missing flag clear), which it
classifies "Late". -/
theorem submission_status_amended (missing late : Bool) (attempt : Option Nat) :
    get_submission_status missing late attempt = specSubmissionStatus missing late attempt ∧
    workflowStatus missing late attempt
      = if missing = false ∧ late = true ∧ attempt = none then "Late"
        else specSubmissionStatus missing late attempt := by
  cases missing <;> cases late <;> cases attempt <;>
    simp [get_submission_status, workflowStatus, specSubmissionStatus]

/-- Claim C10: a manual override replaces the score, feedback and rubric
scores of the final record, sets the regraded flag, and the primary
grader's reconciled score and stripped feedback are kept in the
original-score/original-feedback fields — for every fairness verdict,
including a fair one where no reviewer substitution happened. -/
theorem manual_override_applied (uid : Nat) (aid status : String)
    (primary : GradingResult) (v : FairnessVerdict)
    (rubric_items : List RubricItem) (o : ManualOverride) :
    (buildRunResult uid aid status primary v rubric_items (some o)).score = o.score ∧
    (buildRunResult uid aid status primary v rubric_items (some o)).feedback = o.feedback ∧
    (buildRunResult uid aid status primary v rubric_items (some o)).rubric_scores
      = o.rubric_scores.getD [⟨"Manual Override", o.score, none, "Instructor override"⟩] ∧
    (buildRunResult uid aid status primary v rubric_items (some o)).was_regraded = true ∧
    (buildRunResult uid aid status primary v rubric_items (some o)).original_score
      = some (sumPoints ((ensure_grading_completeness primary rubric_items).rubric_scores.getD [])) ∧
    (buildRunResult uid aid status primary v rubric_items (some o)).original_feedback
      = some (pyStrip (ensure_grading_completeness primary rubric_items).overall_feedback) := by
  exact ⟨rfl, rfl, rfl, rfl, rfl, rfl⟩

/-- The rational `0.69` (boundary value just below the threshold). -/
def q69 : Rat := ⟨69, 100, by decide, by decide⟩

/-- The rational `0.70`. -/
def q70 : Rat := ⟨7, 10, by decide, by decide⟩

/-- A sample two-criterion rubric (the spec's end-to-end scenario). -/
def sampleRubric : List RubricItem := [⟨"Clarity", 10⟩, ⟨"Completeness", 10⟩]

/-- A sample primary grading result over `sampleRubric`. -/
def sampleGrading : GradingResult :=
  ⟨some [⟨"Clarity", 10, none, "clear"⟩, ⟨"Completeness", 4, none, "partial"⟩], "Decent work"⟩

/-- A sample reviewer alternative over `sampleRubric`. -/
def sampleRevised : GradingResult :=
  ⟨some [⟨"Clarity", 10, none, "clear"⟩, ⟨"Completeness", 10, none, "complete"⟩], "Better"⟩

/-- Claim C2: with no manual override, the reviewer's alternative replaces
the primary result iff the verdict is unfair, the alternative is present,
and the confidence is at least 0.7; at confidence 0.69 the primary result
is kept and at 0.70 the alternative is substituted; on substitution the
primary result's reconciled score and stripped feedback are retained in
the original fields and the alternative is itself re-reconciled against
the rubric (then passed through the ceiling rule) before becoming final. -/
theorem consensus_resolution (uid : Nat) (aid status : String)
    (primary g : GradingResult) (v : FairnessVerdict) (rubric_items : List RubricItem) :
    ((buildRunResult uid aid status primary v rubric_items none).was_regraded = true
      ↔ (v.fair = false ∧ v.revised.isSome = true ∧ confidenceThreshold ≤ v.confidence)) ∧
    (v.fair = false → v.revised = some g → v.confidence = q69 →
      (buildRunResult uid aid status primary v rubric_items none).was_regraded = false ∧
      (buildRunResult uid aid status primary v rubric_items none).rubric_scores
        = ((ensure_grading_completeness primary rubric_items).rubric_scores.getD []).map
            applyScoreCeiling) ∧
    (v.fair = false → v.revised = some g → v.confidence = q70 →
      (buildRunResult uid aid status primary v rubric_items none).was_regraded = true) ∧
    (v.fair = false → v.revised = some g → confidenceThreshold ≤ v.confidence →
      (buildRunResult uid aid status primary v rubric_items none).rubric_scores
        = ((ensure_grading_completeness g rubric_items).rubric_scores.getD []).map
            applyScoreCeiling ∧
      (buildRunResult uid aid status primary v rubric_items none).original_score
        = some (sumPoints
            ((ensure_grading_completeness primary rubric_items).rubric_scores.getD [])) ∧
      (buildRunResult uid aid status primary v rubric_items none).original_feedback
        = some (pyStrip (ensure_grading_completeness primary rubric_items).overall_feedback)) := by
  obtain ⟨fair, vreason, revised, conf⟩ := v
  cases fair with
  | true =>
    cases revised with
    | none =>
      refine ⟨by simp [buildRunResult, resolveConsensus], ?_, ?_, ?_⟩ <;>
        (intro hfair; simp at hfair)
    | some r =>
      refine ⟨by simp [buildRunResult, resolveConsensus], ?_, ?_, ?_⟩ <;>
        (intro hfair; simp at hfair)
  | false =>
    cases revised with
    | none =>
      refine ⟨by simp [buildRunResult, resolveConsensus], ?_, ?_, ?_⟩ <;>
        (intro _ hrev; simp at hrev)
    | some r =>
      by_cases hconf : confidenceThreshold ≤ conf
      · refine ⟨?_, ?_, ?_, ?_⟩
        · simp [buildRunResult, resolveConsensus, ge_iff_le, hconf]
        · intro _ _ h69
          subst h69
          exact absurd hconf (by decide)
        · intro _ _ _
          simp [buildRunResult, resolveConsensus, ge_iff_le, hconf]
        · intro _ hrev _
          obtain rfl : r = g := by simpa using hrev
          refine ⟨?_, ?_, ?_⟩ <;>
            simp [buildRunResult, resolveConsensus, ge_iff_le, hconf]
      · refine ⟨?_, ?_, ?_, ?_⟩
        · simp [buildRunResult, resolveConsensus, ge_iff_le, hconf]
        · intro _ _ _
          constructor <;> simp [buildRunResult, resolveConsensus, ge_iff_le, hconf]
        · intro _ _ h70
          subst h70
          exact absurd (by decide : confidenceThreshold ≤ q70) hconf
        · intro _ _ hc
          exact absurd hc hconf

/-- Witness for `consensus_resolution` at the claim's boundary: with
fair = false and a present alternative, confidence 0.69 keeps the primary
result and confidence 0.70 substitutes. -/
theorem consensus_resolution_witness :
    (buildRunResult 1 "user001" "On Time" sampleGrading
        ⟨false, "low", some sampleRevised, q69⟩ sampleRubric none).was_regraded = false ∧
    (buildRunResult 1 "user001" "On Time" sampleGrading
        ⟨false, "low", some sampleRevised, q70⟩ sampleRubric none).was_regraded = true := by
  refine ⟨((consensus_resolution 1 "user001" "On Time" sampleGrading sampleRevised
      ⟨false, "low", some sampleRevised, q69⟩ sampleRubric).2.1 rfl rfl rfl).1, ?_⟩
  exact (consensus_resolution 1 "user001" "On Time" sampleGrading sampleRevised
      ⟨false, "low", some sampleRevised, q70⟩ sampleRubric).2.2.1 rfl rfl rfl

/-- Claim C3 (counterexample): a submitter with zero attachments produces
no result record, no failure entry, and no progress tick — the loop body
logs and `continue`s, so this skipped submitter is absent from every
failure bucket, contradicting the claim that every skipped submitter is
recorded in exactly one bucket. -/
theorem no_files_skip_counterexample :
    processSubmitter sampleRubric none false "user001"
        ⟨7, false, false, some 1, [], [], "text", none, sampleGrading,
          ⟨true, "", none, ratZero⟩⟩
      = ⟨none, none, false⟩ := by
  exact rfl

/-- Claim C3 (amended): a submitter skipped for an empty attachment list or
for all-failed downloads is only logged — it gets neither a record nor a
failure entry.  A submitter past those two checks produces a graded record
exactly when it produces no failure entry; with empty extracted text it is
recorded with the fixed no-extractable-text reason, and with a grading
exception it is recorded with the exception message — one failure entry
either way. -/
theorem failure_buckets_amended (rubric_items : List RubricItem)
    (o : Option ManualOverride) (gmz : Bool) (aid : String) (emsg : String)
    (sub : SubmissionInfo) :
    ((gmz && sub.missing) = false → sub.attachments = [] ∨ sub.downloaded = [] →
      processSubmitter rubric_items o gmz aid sub = ⟨none, none, false⟩) ∧
    (sub.attachments ≠ [] → sub.downloaded ≠ [] →
      ((processSubmitter rubric_items o gmz aid sub).record.isSome = true
        ↔ (processSubmitter rubric_items o gmz aid sub).failure = none)) ∧
    ((gmz && sub.missing) = false → sub.attachments ≠ [] → sub.downloaded ≠ [] →
      pyStrip sub.extracted_text = "" →
      (processSubmitter rubric_items o gmz aid sub).failure
        = some ⟨sub.user_id, aid, workflowStatus sub.missing sub.late sub.attempt,
            "No extractable text in submission"⟩) ∧
    ((gmz && sub.missing) = false → sub.attachments ≠ [] → sub.downloaded ≠ [] →
      pyStrip sub.extracted_text ≠ "" → sub.error_msg = some emsg →
      (processSubmitter rubric_items o gmz aid sub).failure
        = some ⟨sub.user_id, aid, workflowStatus sub.missing sub.late sub.attempt, emsg⟩) := by
  obtain ⟨u, miss, lt, att, atts, dls, text, err, prim, vd⟩ := sub
  refine ⟨?_, ?_, ?_, ?_⟩
  · intro hmz hempty
    rcases hempty with h | h
    · subst h
      simp [processSubmitter, hmz]
    · subst h
      cases atts with
      | nil => simp [processSubmitter, hmz]
      | cons a as => simp [processSubmitter, hmz]
  · intro ha hd
    cases hmz : gmz && miss with
    | true => simp [processSubmitter, hmz]
    | false =>
      cases atts with
      | nil => exact absurd rfl ha
      | cons a as =>
        cases dls with
        | nil => exact absurd rfl hd
        | cons d ds =>
          by_cases htext : pyStrip text = ""
          · simp [processSubmitter, hmz, htext]
          · cases err with
            | some e => simp [processSubmitter, hmz, htext]
            | none => simp [processSubmitter, hmz, htext]
  · intro hmz ha hd htext
    cases atts with
    | nil => exact absurd rfl ha
    | cons a as =>
      cases dls with
      | nil => exact absurd rfl hd
      | cons d ds => simp [processSubmitter, hmz, htext]
  · intro hmz ha hd htext herr
    cases atts with
    | nil => exact absurd rfl ha
    | cons a as =>
      cases dls with
      | nil => exact absurd rfl hd
      | cons d ds =>
        subst herr
        simp [processSubmitter, hmz, htext]

/-- Witness for `failure_buckets_amended`: a submitter with one attachment,
one downloaded file and whitespace-only extracted text is recorded in the
no-extractable-text bucket. -/
theorem failure_buckets_amended_witness :
    (processSubmitter sampleRubric none false "user003"
        ⟨9, false, false, some 1, ["hw.docx"], ["/tmp/hw.pdf"], "  ", none,
          sampleGrading, ⟨true, "", none, ratZero⟩⟩).failure
      = some ⟨9, "user003", "On Time", "No extractable text in submission"⟩ := by
  exact (failure_buckets_amended sampleRubric none false "user003" ""
      ⟨9, false, false, some 1, ["hw.docx"], ["/tmp/hw.pdf"], "  ", none,
        sampleGrading, ⟨true, "", none, ratZero⟩⟩).2.2.1 rfl (by decide) (by decide) rfl

/-- Claim C8 (counterexample): a submitter whose grading raises an
exception is recorded in the failure bucket but no `(completed, total)`
progress tick is emitted for it — the update call sits at the end of the
`try` block and is skipped on the exception path, contradicting "after
every submitter, whether successful or failed". -/
theorem progress_tick_counterexample :
    (processSubmitter sampleRubric none false "user002"
        ⟨8, false, false, some 1, ["a.pdf"], ["/tmp/a.pdf"], "some text",
          some "ValueError", sampleGrading, ⟨true, "", none, ratZero⟩⟩).failure.isSome
      = true ∧
    (processSubmitter sampleRubric none false "user002"
        ⟨8, false, false, some 1, ["a.pdf"], ["/tmp/a.pdf"], "some text",
          some "ValueError", sampleGrading, ⟨true, "", none, ratZero⟩⟩).progressed
      = false := by
  exact ⟨rfl, rfl⟩

/-- Claim C8 (amended): a progress tick is emitted for a submitter exactly
when a result record is appended for it (a graded submitter or the
missing-as-zero shortcut); skipped and errored submitters emit no tick. -/
theorem progress_tick_amended (rubric_items : List RubricItem)
    (o : Option ManualOverride) (gmz : Bool) (aid : String) (sub : SubmissionInfo) :
    (processSubmitter rubric_items o gmz aid sub).progressed
      = (processSubmitter rubric_items o gmz aid sub).record.isSome := by
  obtain ⟨u, miss, lt, att, atts, dls, text, err, prim, vd⟩ := sub
  cases hmz : gmz && miss with
  | true => simp [processSubmitter, hmz]
  | false =>
    cases atts with
    | nil => simp [processSubmitter, hmz]
    | cons a as =>
      cases dls with
      | nil => simp [processSubmitter, hmz]
      | cons d ds =>
        by_cases htext : pyStrip text = ""
        · simp [processSubmitter, hmz, htext]
        · cases err with
          | some e => simp [processSubmitter, hmz, htext]
          | none => simp [processSubmitter, hmz, htext]

/-- Totality of the Python string order. -/
lemma lexLe_total : ∀ a b : List Char, lexLe a b = true ∨ lexLe b a = true
  | [], _ => Or.inl rfl
  | _ :: _, [] => Or.inr rfl
  | a :: as, b :: bs => by
    rcases Nat.lt_trichotomy a.toNat b.toNat with h | h | h
    · exact Or.inl (by simp [lexLe, h])
    · have hn1 : ¬ a.toNat < b.toNat := by omega
      have hn2 : ¬ b.toNat < a.toNat := by omega
      rcases lexLe_total as bs with ih | ih
      · exact Or.inl (by simp [lexLe, hn1, hn2, ih])
      · exact Or.inr (by simp [lexLe, hn1, hn2, ih])
    · exact Or.inr (by simp [lexLe, h])

/-- Transitivity of the Python string order. -/
lemma lexLe_trans : ∀ a b c : List Char,
    lexLe a b = true → lexLe b c = true → lexLe a c = true
  | [], _, _, _, _ => rfl
  | _ :: _, [], _, h1, _ => by simp [lexLe] at h1
  | _ :: _, _ :: _, [], _, h2 => by simp [lexLe] at h2
  | a :: as, b :: bs, c :: cs, h1, h2 => by
    rcases Nat.lt_trichotomy a.toNat b.toNat with hab | hab | hab
    · rcases Nat.lt_trichotomy b.toNat c.toNat with hbc | hbc | hbc
      · simp [lexLe, show a.toNat < c.toNat by omega]
      · simp [lexLe, show a.toNat < c.toNat by omega]
      · simp [lexLe, show ¬ b.toNat < c.toNat by omega, hbc] at h2
    · rcases Nat.lt_trichotomy b.toNat c.toNat with hbc | hbc | hbc
      · simp [lexLe, show a.toNat < c.toNat by omega]
      · have h1' : lexLe as bs = true := by
          simpa [lexLe, show ¬ a.toNat < b.toNat by omega,
            show ¬ b.toNat < a.toNat by omega] using h1
        have h2' : lexLe bs cs = true := by
          simpa [lexLe, show ¬ b.toNat < c.toNat by omega,
            show ¬ c.toNat < b.toNat by omega] using h2
        simp [lexLe, show ¬ a.toNat < c.toNat by omega,
          show ¬ c.toNat < a.toNat by omega]
        exact lexLe_trans as bs cs h1' h2'
      · simp [lexLe, show ¬ b.toNat < c.toNat by omega, hbc] at h2
    · simp [lexLe, show ¬ a.toNat < b.toNat by omega, hab] at h1

/-- Antisymmetry of the Python string order. -/
lemma lexLe_antisymm : ∀ a b : List Char,
    lexLe a b = true → lexLe b a = true → a = b
  | [], [], _, _ => rfl
  | [], _ :: _, _, h2 => by simp [lexLe] at h2
  | _ :: _, [], h1, _ => by simp [lexLe] at h1
  | a :: as, b :: bs, h1, h2 => by
    rcases Nat.lt_trichotomy a.toNat b.toNat with h | h | h
    · simp [lexLe, show ¬ b.toNat < a.toNat by omega, h] at h2
    · have hab : a = b := by
        apply Char.eq_of_val_eq
        unfold Char.toNat at h
        exact UInt32.toNat.inj h
      have h1' : lexLe as bs = true := by
        simpa [lexLe, show ¬ a.toNat < b.toNat by omega,
          show ¬ b.toNat < a.toNat by omega] using h1
      have h2' : lexLe bs as = true := by
        simpa [lexLe, show ¬ a.toNat < b.toNat by omega,
          show ¬ b.toNat < a.toNat by omega] using h2
      rw [hab, lexLe_antisymm as bs h1' h2']
    · simp [lexLe, show ¬ a.toNat < b.toNat by omega, h] at h1

instance : IsTotal String pyLe := ⟨fun a b => lexLe_total a.data b.data⟩

instance : IsTrans String pyLe := ⟨fun a b c => lexLe_trans a.data b.data c.data⟩

instance : IsAntisymm String pyLe :=
  ⟨fun a b h1 h2 => String.ext (lexLe_antisymm a.data b.data h1 h2)⟩

/-- Numeric value of a decimal digit character. -/
def digitVal (c : Char) : Nat := c.toNat - 48

/-- Value of a decimal digit string (leading zeros do not change it). -/
def valOfDigits (l : List Char) : Nat :=
  l.foldl (fun acc c => 10 * acc + digitVal c) 0

lemma valOfDigits_replicate_zero (k : Nat) (l : List Char) :
    valOfDigits (List.replicate k '0' ++ l) = valOfDigits l := by
  induction k with
  | zero => rfl
  | succ n ih =>
    rw [List.replicate_succ]
    show valOfDigits (List.replicate n '0' ++ l) = valOfDigits l
    exact ih

lemma valOfDigits_append (l : List Char) (c : Char) :
    valOfDigits (l ++ [c]) = 10 * valOfDigits l + digitVal c := by
  unfold valOfDigits
  rw [List.foldl_append]
  rfl

lemma digitVal_digitChar (k : Nat) (hk : k < 10) :
    digitVal (Nat.digitChar k) = k := by
  interval_cases k <;> rfl

lemma valOfDigits_natDigitsAux : ∀ fuel n : Nat, n < fuel →
    valOfDigits (natDigitsAux fuel n) = n := by
  intro fuel
  induction fuel with
  | zero => intro n hn; omega
  | succ f ih =>
    intro n hn
    unfold natDigitsAux
    by_cases h : n < 10
    · rw [if_pos h]
      show 10 * 0 + digitVal (Nat.digitChar n) = n
      rw [digitVal_digitChar n h]
      omega
    · rw [if_neg h, valOfDigits_append,
        ih (n / 10) (by
          have hd : n / 10 < n := Nat.div_lt_self (by omega) (by omega)
          omega),
        digitVal_digitChar (n % 10) (Nat.mod_lt _ (by omega))]
      omega

lemma valOfDigits_zfill_natStr (n : Nat) :
    valOfDigits (zfill 3 (natStr n)).data = n := by
  show valOfDigits (List.replicate _ '0' ++ (natStr n).data) = n
  rw [valOfDigits_replicate_zero]
  exact valOfDigits_natDigitsAux (n + 1) n (Nat.lt_succ_self n)

/-- The anonymous labels are pairwise distinct: the rank can be decoded
back from the label. -/
lemma anonLabel_injective : Function.Injective anonLabel := by
  intro a b h
  have hdata : "user".data ++ (zfill 3 (natStr a)).data
      = "user".data ++ (zfill 3 (natStr b)).data := by
    have h2 := congrArg String.data h
    simpa [anonLabel, String.data_append] using h2
  have hz := List.append_cancel_left hdata
  have h3 := congrArg valOfDigits hz
  rwa [valOfDigits_zfill_natStr, valOfDigits_zfill_natStr] at h3

/-- Claim C7: for a duplicate-free identifier list, the anonymization
mapping pairs exactly the input identifiers (its key list is a
duplicate-free permutation of them) with the labels user001..userN in
sorted-identifier order, the labels are pairwise distinct (so the mapping
is a bijection onto them), and rebuilding from any reordering of the same
identifiers yields the identical mapping. -/
theorem anonymized_mapping_bijection (ids : List String) (h : ids.Nodup) :
    ((generate_anonymized_mapping ids).map Prod.fst).Perm ids ∧
    ((generate_anonymized_mapping ids).map Prod.fst).Nodup ∧
    (generate_anonymized_mapping ids).map Prod.snd
      = (List.range ids.length).map (fun i => anonLabel (i + 1)) ∧
    ((generate_anonymized_mapping ids).map Prod.snd).Nodup ∧
    (∀ ids' : List String, ids'.Perm ids →
        generate_anonymized_mapping ids' = generate_anonymized_mapping ids) := by
  have hperm : (sortedStrings ids).Perm ids := List.perm_insertionSort pyLe ids
  have hkeys : (generate_anonymized_mapping ids).map Prod.fst = sortedStrings ids := by
    unfold generate_anonymized_mapping
    rw [List.map_map]
    exact List.enum_map_snd _
  have hvals : (generate_anonymized_mapping ids).map Prod.snd
      = (List.range ids.length).map (fun i => anonLabel (i + 1)) := by
    unfold generate_anonymized_mapping
    rw [List.map_map, ← hperm.length_eq, ← List.enum_map_fst (sortedStrings ids),
      List.map_map]
    rfl
  have hinj : Function.Injective (fun i => anonLabel (i + 1)) := by
    intro x y hxy
    have := anonLabel_injective hxy
    omega
  refine ⟨hkeys ▸ hperm, hkeys ▸ hperm.symm.nodup h, hvals, ?_, ?_⟩
  · rw [hvals]
    exact List.Nodup.map hinj (List.nodup_range _)
  · intro ids' hp
    have hsorteq : sortedStrings ids' = sortedStrings ids := by
      refine List.eq_of_perm_of_sorted
        ((List.perm_insertionSort pyLe ids').trans
          (hp.trans (List.perm_insertionSort pyLe ids).symm))
        (List.sorted_insertionSort pyLe ids') (List.sorted_insertionSort pyLe ids)
    unfold generate_anonymized_mapping
    rw [hsorteq]

/-- Witness for `anonymized_mapping_bijection`: three identifiers map, in
sorted order, to user001..user003, and the key list is a permutation of
the input. -/
theorem anonymized_mapping_bijection_witness :
    (generate_anonymized_mapping ["235", "208", "301"]).map Prod.snd
      = ["user001", "user002", "user003"] ∧
    ((generate_anonymized_mapping ["235", "208", "301"]).map Prod.fst).Perm
      ["235", "208", "301"] := by
  have h := anonymized_mapping_bijection ["235", "208", "301"] (by decide)
  refine ⟨?_, h.1⟩
  rw [h.2.2.1]
  decide
